import Mathlib

/-!
Verification of the caption/time-window resolution and response-caching layer
of the gaffer-s-chalkboard backend.

The definitions below are a shallow embedding of `src/backend/server.js`.
JavaScript numbers are modelled as rationals (`ℚ`); a field that
`parseFloat` may fail to parse (yielding `NaN`, which is falsy) is modelled
as an `Option ℚ` with `none` standing for "missing or unparseable".
The in-memory `Map` caches are modelled as functions `String → Option _`.
The outcomes of the two external collaborators (the YouTube caption fetch
and the upstream generation call) are passed in explicitly, so that every
combination of external success and failure can be quantified over.

The repository also contains a later Python backend (`agent/main.py`,
described by the repository documents but not part of the sources here);
the TTL cache and the timeout-bounded caption fetch live there and are
modelled from the specification text, in clearly marked definitions below.
-/

section Chalkboard

attribute [local semireducible] Rat.add Rat.sub Rat.mul Rat.inv

/-- A caption entry as consumed by `getCaptionAtTimestamp`:
`text`, a numeric `start` (seconds) and a duration `dur`
(`none` models a missing or unparseable `dur` field, i.e. `parseFloat` = NaN). -/
structure CaptionEntry where
  text : String
  start : ℚ
  dur : Option ℚ
deriving DecidableEq

/-- The effective duration used by `getCaptionAtTimestamp`:
JavaScript `parseFloat(cap.dur) || 2`, which yields 2 when `dur` is
missing, unparseable, or parses to 0. -/
def effDur (c : CaptionEntry) : ℚ :=
  match c.dur with
  | some d => if d = 0 then 2 else d
  | none => 2

/-- Distance from a timestamp to a caption entry's start. -/
def diffAt (t : ℚ) (c : CaptionEntry) : ℚ := |t - c.start|

/-- Phase-1 test of `getCaptionAtTimestamp`:
`timestamp >= start && timestamp <= start + duration + 2`
with `duration = parseFloat(cap.dur) || 2`. -/
def inWindow (t : ℚ) (c : CaptionEntry) : Bool :=
  decide (c.start ≤ t) && decide (t ≤ c.start + effDur c + 2)

/-- One step of the nearest-caption loop of `getCaptionAtTimestamp`:
the accumulator holds the current `(nearest, nearestDiff)` (`none` models
`nearest = null, nearestDiff = Infinity`); an entry replaces it when
`diff < nearestDiff && diff <= 5`. -/
def nearestStep (t : ℚ) (acc : Option (CaptionEntry × ℚ)) (c : CaptionEntry) :
    Option (CaptionEntry × ℚ) :=
  let diff := diffAt t c
  match acc with
  | none => if diff ≤ 5 then some (c, diff) else none
  | some (n, nd) => if diff < nd ∧ diff ≤ 5 then some (c, diff) else some (n, nd)

/-- Embedding of `getCaptionAtTimestamp(captions, timestamp)` from
`src/backend/server.js`: return `null` on an empty list; otherwise find the
first caption whose (slack-extended) interval contains the timestamp;
otherwise scan for the nearest caption within 5 seconds. -/
def getCaptionAtTimestamp (captions : List CaptionEntry) (timestamp : ℚ) :
    Option String :=
  if captions.isEmpty then none
  else
    match captions.find? (inWindow timestamp) with
    | some c => some c.text
    | none => (captions.foldl (nearestStep timestamp) none).map (fun p => p.1.text)

/-- Whether `needle` occurs as a contiguous run inside `hay` (character lists). -/
def containsSub (needle : List Char) : List Char → Bool
  | [] => needle.isEmpty
  | c :: rest => needle.isPrefixOf (c :: rest) || containsSub needle rest

/-- Substring test modelling JavaScript `String.prototype.includes`. -/
def strIncludes (hay needle : String) : Bool :=
  containsSub needle.data hay.data

/-- ASCII lowercasing, modelling `String.prototype.toLowerCase` on the
keyword alphabet used by the backend. -/
def strLower (s : String) : String := String.mk (s.data.map Char.toLower)

/-- Embedding of `determineDiagramType(commentary)` from `src/backend/server.js`. -/
def determineDiagramType (commentary : String) : String :=
  let lower := strLower commentary
  if strIncludes lower "goal" || strIncludes lower "score" || strIncludes lower "finish" then
    "goal"
  else if strIncludes lower "through" || strIncludes lower "pass" then
    "through-ball"
  else if strIncludes lower "offside" || strIncludes lower "trap" then
    "offside-trap"
  else
    "defensive"

/-- Embedding of `generateStubNFLAnalogy(commentary)` from `src/backend/server.js`:
the local deterministic stub analogy, selected by keyword matching on the
lowercased commentary. -/
def generateStubNFLAnalogy (commentary : String) : String :=
  let lower := strLower commentary
  if strIncludes lower "goal" || strIncludes lower "score" then
    "That\x27s a touchdown moment! The striker hit the back of the net like a receiver catching a fade route in the end zone — perfect timing, perfect execution."
  else if strIncludes lower "pass" || strIncludes lower "through" then
    "Think of that pass like a QB threading a seam route between the linebackers and safeties. The timing window was tiny, and the midfielder hit it perfectly."
  else if strIncludes lower "defend" || strIncludes lower "block" || strIncludes lower "tackle" then
    "That defensive play is like a linebacker reading the quarterback\x27s eyes and jumping the route. Great anticipation to cut off the attacking lane."
  else if strIncludes lower "save" || strIncludes lower "keeper" || strIncludes lower "goalkeeper" then
    "The goalkeeper made a save like a safety coming over the top to break up a deep ball. Last line of defense doing their job perfectly."
  else if strIncludes lower "foul" || strIncludes lower "card" then
    "That\x27s a professional foul — like an intentional holding penalty when you\x27re beat. Take the flag instead of giving up the big play."
  else if strIncludes lower "corner" || strIncludes lower "set piece" then
    "This set piece is like a goal-line package play. Everyone has an assignment, and it\x27s all about execution and winning the one-on-one battles."
  else
    "This play is like a well-designed offensive scheme — every player has a role, creating space and options. The team with the ball is probing for weaknesses while the defense reads and reacts."

/-- JavaScript `Math.trunc` on a number, used to model the `%` remainder. -/
def jsTrunc (q : ℚ) : ℤ := if 0 ≤ q then ⌊q⌋ else ⌈q⌉

/-- JavaScript `a % b` on numbers (remainder with the dividend's sign). -/
def jsRem (a b : ℚ) : ℚ := a - b * (jsTrunc (a / b) : ℚ)

/-- JavaScript `s.padStart(2, "0")`. -/
def padStart2 (s : String) : String := if s.length < 2 then "0" ++ s else s

/-- The generic fallback commentary built in the `/api/generate-analogy`
handler when no caption is available:
``Soccer action at <floor(ts / 60)>:<floor(ts % 60) padded to two digits>``. -/
def genericDescription (ts : ℚ) : String :=
  "Soccer action at " ++ toString ⌊ts / 60⌋ ++ ":" ++
    padStart2 (toString ⌊jsRem ts 60⌋)

/-- Embedding of `generateNFLAnalogy(commentary, ...)`: `genUpstream` models
the outcome of the upstream Anthropic call — `none` when there is no API key
or the call errors (non-ok status, network failure), `some s` when the call
returns text `s`; a returned empty string also falls back to the stub
(`data.content[0]?.text || generateStubNFLAnalogy(commentary)`). -/
def generateNFLAnalogy (commentary : String) (genUpstream : Option String) : String :=
  match genUpstream with
  | none => generateStubNFLAnalogy commentary
  | some s => if s = "" then generateStubNFLAnalogy commentary else s

/-- The result object assembled by the `/api/generate-analogy` handler. -/
structure AnalogyResult where
  originalCommentary : String
  nflAnalogy : String
  fieldDiagram : String
  timestamp : ℚ
  videoId : String
  cached : Bool
deriving DecidableEq

/-- An HTTP response of the handler: a 200 JSON result or a 400 client error. -/
inductive Response where
  | ok (result : AnalogyResult)
  | clientError (message : String)
deriving DecidableEq

/-- HTTP status code of a response. -/
def Response.status : Response → ℕ
  | .ok _ => 200
  | .clientError _ => 400

/-- The two process-lifetime in-memory maps of `src/backend/server.js`:
`captionsCache` (videoId → captions array) and `analogyCache`
(bucketed key → analogy result). -/
structure ServerState where
  captionsCache : String → Option (List CaptionEntry)
  analogyCache : String → Option AnalogyResult

/-- The server state at process start: both maps empty. -/
def emptyState : ServerState := ⟨fun _ => none, fun _ => none⟩

/-- The body of a `POST /api/generate-analogy` request. `videoId` and
`caption` are `none` when the field is absent; `timestamp` is `none` when
the field is absent or does not parse as a number. -/
structure AnalogyRequest where
  videoId : Option String
  timestamp : Option ℚ
  caption : Option String

/-- JavaScript falsiness of an optional string (`undefined` or `""`). -/
def isFalsyStr : Option String → Bool
  | none => true
  | some s => s = ""

/-- Insertion into a string-keyed map, modelling `Map.prototype.set`. -/
def mapInsert {α : Type} (m : String → Option α) (key : String) (v : α) :
    String → Option α :=
  fun k => if k = key then some v else m k

/-- Embedding of `fetchCaptions(videoId)`: return the cached caption list if
present; otherwise consult the upstream caption service (`.ok caps` models a
successful `getSubtitles` call, `.error ()` a thrown error), caching only
successful results and returning `[]` on failure. The returned triple is
(captions, updated cache, whether a network fetch was attempted). -/
def fetchCaptions (cache : String → Option (List CaptionEntry)) (videoId : String)
    (upstream : Except Unit (List CaptionEntry)) :
    List CaptionEntry × (String → Option (List CaptionEntry)) × Bool :=
  match cache videoId with
  | some caps => (caps, cache, false)
  | none =>
    match upstream with
    | .ok caps => (caps, mapInsert cache videoId caps, true)
    | .error _ => ([], cache, true)

/-- The analogy cache key of the handler:
```${videoId}-${Math.floor(ts / 5) * 5}``` (5-second buckets). -/
def bucketKey (videoId : String) (ts : ℚ) : String :=
  videoId ++ "-" ++ toString (⌊ts / 5⌋ * 5)

/-- What one call of the `/api/generate-analogy` handler produced: its
response, the server state afterwards, and whether the caption network fetch
and the analogy generation were invoked during the call. -/
structure Outcome where
  response : Response
  finalState : ServerState
  captionFetchAttempted : Bool
  generationInvoked : Bool

/-- Caption acquisition step of the handler on a cache miss: use the provided
caption when it is truthy, otherwise fetch captions and look one up at the
timestamp. Returns (commentary candidate, caption cache, fetch attempted). -/
def acquireCommentary (capCache : String → Option (List CaptionEntry))
    (videoId : String) (ts : ℚ) (providedCaption : Option String)
    (captionUpstream : Except Unit (List CaptionEntry)) :
    Option String × (String → Option (List CaptionEntry)) × Bool :=
  if isFalsyStr providedCaption then
    let fc := fetchCaptions capCache videoId captionUpstream
    (getCaptionAtTimestamp fc.1 ts, fc.2.1, fc.2.2)
  else
    (providedCaption, capCache, false)

/-- The commentary string the handler resolves on a cache miss: the acquired
caption, or the generic timestamp description when it is null or empty. -/
def resolvedCommentary (capCache : String → Option (List CaptionEntry))
    (videoId : String) (ts : ℚ) (providedCaption : Option String)
    (captionUpstream : Except Unit (List CaptionEntry)) : String :=
  match (acquireCommentary capCache videoId ts providedCaption captionUpstream).1 with
  | some c => if c = "" then genericDescription ts else c
  | none => genericDescription ts

/-- The fresh `AnalogyResult` assembled on a cache miss (`cached: false`). -/
def missResult (st : ServerState) (videoId : String) (ts : ℚ)
    (providedCaption : Option String)
    (captionUpstream : Except Unit (List CaptionEntry))
    (genUpstream : Option String) : AnalogyResult :=
  let commentary := resolvedCommentary st.captionsCache videoId ts providedCaption captionUpstream
  { originalCommentary := commentary
    nflAnalogy := generateNFLAnalogy commentary genUpstream
    fieldDiagram := determineDiagramType commentary
    timestamp := ts
    videoId := videoId
    cached := false }

/-- The cache-miss path of the handler: resolve commentary, generate the
analogy, assemble the result, store a copy marked `cached: true` under the
bucket key, and respond with the fresh result (`cached: false`). -/
def resolveMiss (st : ServerState) (videoId : String) (ts : ℚ)
    (providedCaption : Option String)
    (captionUpstream : Except Unit (List CaptionEntry))
    (genUpstream : Option String) : Outcome :=
  let a := acquireCommentary st.captionsCache videoId ts providedCaption captionUpstream
  let result := missResult st videoId ts providedCaption captionUpstream genUpstream
  { response := .ok result
    finalState :=
      { captionsCache := a.2.1
        analogyCache := mapInsert st.analogyCache (bucketKey videoId ts)
          { result with cached := true } }
    captionFetchAttempted := a.2.2
    generationInvoked := true }

/-- Embedding of the `POST /api/generate-analogy` handler from
`src/backend/server.js`: reject a falsy `videoId` with a 400 before touching
anything; coerce the timestamp (`parseFloat(timestamp) || 0`); answer cache
hits from the analogy cache; otherwise run the resolution pipeline. -/
def handleGenerateAnalogy (st : ServerState) (req : AnalogyRequest)
    (captionUpstream : Except Unit (List CaptionEntry))
    (genUpstream : Option String) : Outcome :=
  if isFalsyStr req.videoId then
    { response := .clientError "videoId is required"
      finalState := st
      captionFetchAttempted := false
      generationInvoked := false }
  else
    let videoId := req.videoId.getD ""
    let ts := req.timestamp.getD 0
    match st.analogyCache (bucketKey videoId ts) with
    | some r =>
      { response := .ok r
        finalState := st
        captionFetchAttempted := false
        generationInvoked := false }
    | none => resolveMiss st videoId ts req.caption captionUpstream genUpstream

/-- Comparison definition for claim C4, written from the claim's own words
rather than from the source: phase 1 accepts the first entry with
`start ≤ t ≤ start + duration + 2` using the entry's raw duration (an absent
duration is read as 2; the claim does not mention any coercion of a zero
duration); phases 2 and 3 are as in the source. -/
def findAtClaimed (captions : List CaptionEntry) (t : ℚ) : Option String :=
  if captions.isEmpty then none
  else
    match captions.find? (fun c =>
        decide (c.start ≤ t) && decide (t ≤ c.start + c.dur.getD 2 + 2)) with
    | some c => some c.text
    | none => (captions.foldl (nearestStep t) none).map (fun p => p.1.text)

/-- Modelled from the spec: the CacheEntry of the Time-Bucketed Cache
(`{ value, insertedAt, expiresAt }`), whose implementation lives in the
repository's Python backend (`agent/main.py`, referenced by the repository
documents but missing from the sources here). Each entry carries its
time-to-live as the distance from `insertedAt` to `expiresAt`. -/
structure CacheEntry where
  value : AnalogyResult
  insertedAt : ℚ
  expiresAt : ℚ

/-- Modelled from the spec: `get` of the Time-Bucketed Cache, missing from
the sources (it lives in `agent/main.py`): an entry whose TTL has elapsed is
treated as absent; eviction is lazy, so `get` never mutates the backing
store (it is a pure read). -/
def ttlGet (store : String → Option CacheEntry) (now : ℚ) (key : String) :
    Option AnalogyResult :=
  match store key with
  | some e => if now < e.expiresAt then some e.value else none
  | none => none

/-- Modelled from the spec: `put` of the Time-Bucketed Cache, missing from
the sources (it lives in `agent/main.py`): store the value with
`insertedAt = now` and `expiresAt = now + ttl`. -/
def ttlPut (store : String → Option CacheEntry) (now : ℚ) (key : String)
    (v : AnalogyResult) (ttl : ℚ) : String → Option CacheEntry :=
  mapInsert store key ⟨v, now, now + ttl⟩

/-- A concrete analogy result used by the C3 witness. -/
def sampleResult : AnalogyResult :=
  { originalCommentary := "GOAL!"
    nflAnalogy := generateStubNFLAnalogy "GOAL!"
    fieldDiagram := "goal"
    timestamp := 40
    videoId := "x"
    cached := true }

/-- Modelled from the spec: the hard caption-fetch timeout of the Caption
Source Adapter, missing from the sources (the repository documents place it
in `agent/main.py`: 2–3 seconds; the fetch timeout is 3 seconds), here in
milliseconds. -/
def captionFetchTimeoutMs : ℕ := 3000

/-- Outcome of the timeout-bounded caption fetch: a caption set, or
`CaptionUnavailable` (upstream unreachable, no captions, or timeout). -/
inductive FetchOutcome where
  | ok (caps : List CaptionEntry)
  | captionUnavailable
deriving DecidableEq

/-- How the caller treats a fetch outcome: `CaptionUnavailable` is treated
identically to "no captions exist". -/
def FetchOutcome.capsOrEmpty : FetchOutcome → List CaptionEntry
  | .ok caps => caps
  | .captionUnavailable => []

/-- Modelled from the spec: the race between the caption fetch and the
timeout timer, missing from the sources (it lives in `agent/main.py`). The
`responder` tells, for each elapsed millisecond, whether the upstream has
responded; the race polls it once per tick until the budget is exhausted.
Returns the outcome and the elapsed time. -/
def raceTicks (responder : ℕ → Option (List CaptionEntry)) :
    ℕ → ℕ → FetchOutcome × ℕ
  | 0, elapsed => (.captionUnavailable, elapsed)
  | n + 1, elapsed =>
    match responder elapsed with
    | some caps => (.ok caps, elapsed)
    | none => raceTicks responder (n) (elapsed + 1)

/-- Modelled from the spec: `fetchAll` bounded by the hard timeout. -/
def fetchAllTimed (responder : ℕ → Option (List CaptionEntry)) :
    FetchOutcome × ℕ :=
  raceTicks responder captionFetchTimeoutMs 0

theorem find?_first_match {α : Type} (q : α → Bool) (c : α) (post : List α) :
    ∀ pre : List α, (∀ p ∈ pre, q p = false) → q c = true →
      (pre ++ c :: post).find? q = some c := by
  intro pre
  induction pre with
  | nil => intro _ hc; simp [List.find?, hc]
  | cons p pre ih =>
    intro hpre hc
    have hp : q p = false := hpre p (by simp)
    simp only [List.cons_append, List.find?, hp]
    exact ih (fun x hx => hpre x (by simp [hx])) hc

theorem foldl_nearestStep_none (t : ℚ) :
    ∀ caps : List CaptionEntry, (∀ c ∈ caps, ¬ diffAt t c ≤ 5) →
      caps.foldl (nearestStep t) none = none := by
  intro caps
  induction caps with
  | nil => intro _; rfl
  | cons c rest ih =>
    intro h
    have hc : ¬ diffAt t c ≤ 5 := h c (by simp)
    simp only [List.foldl, nearestStep, if_neg hc]
    exact ih (fun x hx => h x (by simp [hx]))

theorem nearestStep_none_eq (t : ℚ) (c : CaptionEntry) :
    nearestStep t none c =
      if diffAt t c ≤ 5 then some (c, diffAt t c) else none := rfl

theorem nearestStep_some_eq (t : ℚ) (m : CaptionEntry) (md : ℚ) (c : CaptionEntry) :
    nearestStep t (some (m, md)) c =
      if diffAt t c < md ∧ diffAt t c ≤ 5 then some (c, diffAt t c)
      else some (m, md) := rfl

theorem nearestStep_inv (t : ℚ) (acc : Option (CaptionEntry × ℚ)) (c : CaptionEntry)
    (hacc : ∀ n nd, acc = some (n, nd) → nd = diffAt t n ∧ nd ≤ 5) :
    ∀ n nd, nearestStep t acc c = some (n, nd) → nd = diffAt t n ∧ nd ≤ 5 := by
  intro n nd h
  match acc with
  | none =>
    rw [nearestStep_none_eq] at h
    split at h
    · obtain ⟨rfl, rfl⟩ : c = n ∧ diffAt t c = nd := by
        simpa using h
      exact ⟨rfl, by assumption⟩
    · exact absurd h (by simp)
  | some (m, md) =>
    rw [nearestStep_some_eq] at h
    split at h
    · obtain ⟨rfl, rfl⟩ : c = n ∧ diffAt t c = nd := by simpa using h
      rename_i hcond
      exact ⟨rfl, hcond.2⟩
    · obtain ⟨rfl, rfl⟩ : m = n ∧ md = nd := by simpa using h
      exact hacc _ _ rfl

theorem foldl_nearestStep_spec (t : ℚ) :
    ∀ (caps : List CaptionEntry) (acc : Option (CaptionEntry × ℚ)),
      (∀ n nd, acc = some (n, nd) → nd = diffAt t n ∧ nd ≤ 5) →
      ((caps.foldl (nearestStep t) acc = none →
          acc = none ∧ ∀ c ∈ caps, ¬ diffAt t c ≤ 5) ∧
       (∀ n nd, caps.foldl (nearestStep t) acc = some (n, nd) →
          nd = diffAt t n ∧ nd ≤ 5 ∧
          (n ∈ caps ∨ acc = some (n, nd)) ∧
          (∀ c ∈ caps, diffAt t c ≤ 5 → nd ≤ diffAt t c) ∧
          (∀ m md, acc = some (m, md) → nd ≤ md))) := by
  intro caps
  induction caps with
  | nil =>
    intro acc hacc
    refine ⟨fun h => ⟨h, by simp⟩, fun n nd h => ?_⟩
    simp only [List.foldl] at h
    obtain ⟨h1, h2⟩ := hacc n nd h
    refine ⟨h1, h2, Or.inr h, by simp, fun m md hm => ?_⟩
    rw [h] at hm
    obtain ⟨rfl, rfl⟩ : n = m ∧ nd = md := by simpa using hm
    exact le_refl _
  | cons c rest ih =>
    intro acc hacc
    have hstep : (c :: rest).foldl (nearestStep t) acc =
        rest.foldl (nearestStep t) (nearestStep t acc c) := rfl
    obtain ⟨ih1, ih2⟩ := ih (nearestStep t acc c) (nearestStep_inv t acc c hacc)
    constructor
    · intro h
      rw [hstep] at h
      obtain ⟨hacc', hrest⟩ := ih1 h
      have hc : acc = none ∧ ¬ diffAt t c ≤ 5 := by
        match acc with
        | none =>
          rw [nearestStep_none_eq] at hacc'
          split at hacc'
          · exact absurd hacc' (by simp)
          · exact ⟨rfl, by assumption⟩
        | some (m, md) =>
          rw [nearestStep_some_eq] at hacc'
          split at hacc' <;> exact absurd hacc' (by simp)
      refine ⟨hc.1, fun x hx => ?_⟩
      rcases List.mem_cons.mp hx with rfl | hxr
      · exact hc.2
      · exact hrest x hxr
    · intro n nd h
      rw [hstep] at h
      obtain ⟨h1, h2, h3, h4, h5⟩ := ih2 n nd h
      refine ⟨h1, h2, ?_, ?_, ?_⟩
      · rcases h3 with hmem | hAcc'
        · exact Or.inl (List.mem_cons_of_mem _ hmem)
        · match acc with
          | none =>
            rw [nearestStep_none_eq] at hAcc'
            split at hAcc'
            · obtain ⟨rfl, -⟩ : c = n ∧ diffAt t c = nd := by simpa using hAcc'
              exact Or.inl (List.mem_cons_self _ _)
            · exact absurd hAcc' (by simp)
          | some (m, md) =>
            rw [nearestStep_some_eq] at hAcc'
            split at hAcc'
            · obtain ⟨rfl, -⟩ : c = n ∧ diffAt t c = nd := by simpa using hAcc'
              exact Or.inl (List.mem_cons_self _ _)
            · obtain ⟨rfl, rfl⟩ : m = n ∧ md = nd := by simpa using hAcc'
              exact Or.inr rfl
      · intro x hx hx5
        rcases List.mem_cons.mp hx with rfl | hxr
        · match acc with
          | none =>
            have heq : nearestStep t none x = some (x, diffAt t x) := by
              rw [nearestStep_none_eq, if_pos hx5]
            exact h5 x (diffAt t x) heq
          | some (m, md) =>
            by_cases hcond : diffAt t x < md ∧ diffAt t x ≤ 5
            · have heq : nearestStep t (some (m, md)) x = some (x, diffAt t x) := by
                rw [nearestStep_some_eq, if_pos hcond]
              exact h5 x (diffAt t x) heq
            · have hmd : md ≤ diffAt t x :=
                le_of_not_lt (fun hlt => hcond ⟨hlt, hx5⟩)
              have heq : nearestStep t (some (m, md)) x = some (m, md) := by
                rw [nearestStep_some_eq, if_neg hcond]
              exact le_trans (h5 m md heq) hmd
        · exact h4 x hxr hx5
      · intro m md hm
        subst hm
        by_cases hcond : diffAt t c < md ∧ diffAt t c ≤ 5
        · have heq : nearestStep t (some (m, md)) c = some (c, diffAt t c) := by
            rw [nearestStep_some_eq, if_pos hcond]
          exact le_trans (h5 c (diffAt t c) heq) (le_of_lt hcond.1)
        · have heq : nearestStep t (some (m, md)) c = some (m, md) := by
            rw [nearestStep_some_eq, if_neg hcond]
          exact h5 m md heq

/-- C4 (amended): for every caption set and timestamp, `getCaptionAtTimestamp`
follows the two-phase algorithm, where the duration used by phase 1 is the
parsed duration with a missing, unparseable or zero duration replaced by 2
(`parseFloat(cap.dur) || 2`): (1) it returns the first entry (in list order)
with `start ≤ t ≤ start + duration + 2`; (2) if none, it returns an entry
minimizing `|t - start|` among entries within 5 seconds; (3) otherwise it
returns absent. The concrete scenario of the claim holds: on
`[{text:"Short pass inside", start:10, duration:2}, {text:"GOAL!", start:40, duration:3}]`,
lookup at 11 returns the first entry, at 25 absent, at 38 the GOAL entry. -/
theorem getCaptionAtTimestamp_two_phase :
    (∀ (t : ℚ) (pre : List CaptionEntry) (c : CaptionEntry) (post : List CaptionEntry),
        (∀ p ∈ pre, inWindow t p = false) → inWindow t c = true →
        getCaptionAtTimestamp (pre ++ c :: post) t = some c.text) ∧
    (∀ (caps : List CaptionEntry) (t : ℚ),
        (∀ c ∈ caps, inWindow t c = false) →
        (∃ c ∈ caps, diffAt t c ≤ 5) →
        ∃ c ∈ caps, diffAt t c ≤ 5 ∧
          (∀ c2 ∈ caps, diffAt t c2 ≤ 5 → diffAt t c ≤ diffAt t c2) ∧
          getCaptionAtTimestamp caps t = some c.text) ∧
    (∀ (caps : List CaptionEntry) (t : ℚ),
        (∀ c ∈ caps, inWindow t c = false) →
        (∀ c ∈ caps, ¬ diffAt t c ≤ 5) →
        getCaptionAtTimestamp caps t = none) ∧
    getCaptionAtTimestamp
      [⟨"Short pass inside", 10, some 2⟩, ⟨"GOAL!", 40, some 3⟩] 11 =
      some "Short pass inside" ∧
    getCaptionAtTimestamp
      [⟨"Short pass inside", 10, some 2⟩, ⟨"GOAL!", 40, some 3⟩] 25 = none ∧
    getCaptionAtTimestamp
      [⟨"Short pass inside", 10, some 2⟩, ⟨"GOAL!", 40, some 3⟩] 38 =
      some "GOAL!" := by
  refine ⟨?_, ?_, ?_, by decide, by decide, by decide⟩
  · intro t pre c post hpre hc
    have hne : (pre ++ c :: post).isEmpty = false := by cases pre <;> rfl
    unfold getCaptionAtTimestamp
    rw [find?_first_match (inWindow t) c post pre hpre hc]
    simp [hne]
  · intro caps t hwin hex
    obtain ⟨c0, hc0mem, hc05⟩ := hex
    have hfind : caps.find? (inWindow t) = none :=
      List.find?_eq_none.mpr (fun x hx => by simp [hwin x hx])
    obtain ⟨f1, f2⟩ := foldl_nearestStep_spec t caps none (by simp)
    cases hfold : caps.foldl (nearestStep t) none with
    | none => exact absurd hc05 ((f1 hfold).2 c0 hc0mem)
    | some p =>
      obtain ⟨n, nd⟩ := p
      obtain ⟨h1, h2, h3, h4, h5⟩ := f2 n nd hfold
      have hmem : n ∈ caps := by
        rcases h3 with h | h
        · exact h
        · exact absurd h (by simp)
      have hne : caps.isEmpty = false := by
        cases caps
        · exact absurd hc0mem (List.not_mem_nil c0)
        · rfl
      refine ⟨n, hmem, h1 ▸ h2, fun c2 hc2 hc25 => h1 ▸ h4 c2 hc2 hc25, ?_⟩
      unfold getCaptionAtTimestamp
      simp [hne, hfind, hfold]
  · intro caps t hwin h5all
    cases caps with
    | nil => rfl
    | cons a as =>
      have hfind : (a :: as).find? (inWindow t) = none :=
        List.find?_eq_none.mpr (fun x hx => by simp [hwin x hx])
      have hfold := foldl_nearestStep_none t (a :: as) h5all
      unfold getCaptionAtTimestamp
      simp [hfind, hfold]

/-- C4 witness: phase 1 of the two-phase theorem applied at a concrete
caption set and timestamp. -/
theorem getCaptionAtTimestamp_two_phase_witness :
    getCaptionAtTimestamp [⟨"Short pass inside", 10, some 2⟩] 11 =
      some "Short pass inside" :=
  getCaptionAtTimestamp_two_phase.1 11 [] ⟨"Short pass inside", 10, some 2⟩ []
    (fun p hp => absurd hp (List.not_mem_nil p)) (by decide)

/-- C4 counterexample: the claim as stated (phase 1 uses the raw duration)
disagrees with the code on an entry whose duration field is 0. At timestamp
13, the set `[{text:"a", start:10, dur:0}, {text:"b", start:13, dur:5}]` has
no claimed phase-1 match in its first entry (`13 > 10 + 0 + 2`) but a
claimed match in its second, so the claimed algorithm returns "b"; the code
coerces the zero duration to 2 (`parseFloat(cap.dur) || 2`), so the first
entry matches (`10 ≤ 13 ≤ 10 + 2 + 2`) and the code returns "a". -/
theorem getCaptionAtTimestamp_claim_cex :
    getCaptionAtTimestamp [⟨"a", 10, some 0⟩, ⟨"b", 13, some 5⟩] 13 = some "a" ∧
    findAtClaimed [⟨"a", 10, some 0⟩, ⟨"b", 13, some 5⟩] 13 = some "b" ∧
    ¬ ((10 : ℚ) ≤ 13 ∧ (13 : ℚ) ≤ 10 + 0 + 2) ∧
    ((13 : ℚ) ≤ 13 ∧ (13 : ℚ) ≤ 13 + 5 + 2) := by decide

theorem isFalsyStr_some_of_ne {v : String} (h : v ≠ "") :
    isFalsyStr (some v) = false := by
  simp [isFalsyStr, h]

theorem handle_invalid_eq (st : ServerState) (ts : Option ℚ) (cap : Option String)
    (cu : Except Unit (List CaptionEntry)) (g : Option String) :
    handleGenerateAnalogy st ⟨none, ts, cap⟩ cu g =
      { response := .clientError "videoId is required"
        finalState := st
        captionFetchAttempted := false
        generationInvoked := false } := by
  unfold handleGenerateAnalogy
  rfl

theorem handle_hit_eq (st : ServerState) (vid : String) (ts : Option ℚ)
    (cap : Option String) (cu : Except Unit (List CaptionEntry)) (g : Option String)
    (r : AnalogyResult) (hvid : vid ≠ "")
    (hhit : st.analogyCache (bucketKey vid (ts.getD 0)) = some r) :
    handleGenerateAnalogy st ⟨some vid, ts, cap⟩ cu g =
      { response := .ok r
        finalState := st
        captionFetchAttempted := false
        generationInvoked := false } := by
  unfold handleGenerateAnalogy
  simp [isFalsyStr_some_of_ne hvid, hhit]

theorem handle_miss_eq (st : ServerState) (vid : String) (ts : Option ℚ)
    (cap : Option String) (cu : Except Unit (List CaptionEntry)) (g : Option String)
    (hvid : vid ≠ "")
    (hmiss : st.analogyCache (bucketKey vid (ts.getD 0)) = none) :
    handleGenerateAnalogy st ⟨some vid, ts, cap⟩ cu g =
      resolveMiss st vid (ts.getD 0) cap cu g := by
  unfold handleGenerateAnalogy
  simp [isFalsyStr_some_of_ne hvid, hmiss]

theorem resolveMiss_response (st : ServerState) (vid : String) (ts : ℚ)
    (cap : Option String) (cu : Except Unit (List CaptionEntry)) (g : Option String) :
    (resolveMiss st vid ts cap cu g).response =
      .ok (missResult st vid ts cap cu g) := rfl

theorem resolveMiss_cache_at_key (st : ServerState) (vid : String) (ts : ℚ)
    (cap : Option String) (cu : Except Unit (List CaptionEntry)) (g : Option String) :
    (resolveMiss st vid ts cap cu g).finalState.analogyCache (bucketKey vid ts) =
      some { missResult st vid ts cap cu g with cached := true } := by
  simp [resolveMiss, mapInsert]

theorem bucketKey_congr (vid : String) {t1 t2 : ℚ} (h : ⌊t1 / 5⌋ = ⌊t2 / 5⌋) :
    bucketKey vid t1 = bucketKey vid t2 := by
  unfold bucketKey
  rw [h]

/-- C1: with a valid videoId the pipeline always answers 200 with a result,
whatever the external outcomes; and when the caption source fails and the
generation client is unavailable (no API key or upstream error), the
response is the well-formed stub result: commentary is the generic
timestamp description and the analogy is the local deterministic stub. -/
theorem pipeline_never_fails :
    (∀ (st : ServerState) (vid : String) (ts : Option ℚ) (cap : Option String)
        (cu : Except Unit (List CaptionEntry)) (g : Option String), vid ≠ "" →
        ∃ r, (handleGenerateAnalogy st ⟨some vid, ts, cap⟩ cu g).response = .ok r) ∧
    (∀ (st : ServerState) (vid : String) (ts : ℚ), vid ≠ "" →
        st.analogyCache (bucketKey vid ts) = none →
        st.captionsCache vid = none →
        (handleGenerateAnalogy st ⟨some vid, some ts, none⟩ (.error ()) none).response =
          .ok { originalCommentary := genericDescription ts
                nflAnalogy := generateStubNFLAnalogy (genericDescription ts)
                fieldDiagram := determineDiagramType (genericDescription ts)
                timestamp := ts
                videoId := vid
                cached := false }) := by
  constructor
  · intro st vid ts cap cu g hvid
    cases hc : st.analogyCache (bucketKey vid (ts.getD 0)) with
    | some r =>
      exact ⟨r, by rw [handle_hit_eq st vid ts cap cu g r hvid hc]⟩
    | none =>
      exact ⟨missResult st vid (ts.getD 0) cap cu g,
        by rw [handle_miss_eq st vid ts cap cu g hvid hc, resolveMiss_response]⟩
  · intro st vid ts hvid hmiss hcaps
    rw [handle_miss_eq st vid (some ts) none (.error ()) none hvid hmiss,
      resolveMiss_response]
    have hcomm : resolvedCommentary st.captionsCache vid ts none (.error ()) =
        genericDescription ts := by
      unfold resolvedCommentary acquireCommentary fetchCaptions
      simp [isFalsyStr, hcaps, getCaptionAtTimestamp]
    simp only [Option.getD_some, missResult]
    rw [hcomm]
    rfl

/-- C1 witness: the full-failure run on the empty state at videoId "abc123",
timestamp 495 seconds (8:15). -/
theorem pipeline_never_fails_witness :
    (handleGenerateAnalogy emptyState ⟨some "abc123", some 495, none⟩
        (.error ()) none).response =
      .ok { originalCommentary := genericDescription 495
            nflAnalogy := generateStubNFLAnalogy (genericDescription 495)
            fieldDiagram := determineDiagramType (genericDescription 495)
            timestamp := 495
            videoId := "abc123"
            cached := false } :=
  pipeline_never_fails.2 emptyState "abc123" 495 (by decide) rfl rfl

/-- C2: two requests for the same videoId whose timestamps fall in the same
5-second bucket (`⌊t1/5⌋ = ⌊t2/5⌋`): after the first resolves freshly (its
response carries `cached = false` and the stored copy `cached = true`), the
second returns the stored copy with `cached = true` and invokes neither the
generation step nor a caption fetch, leaving the state unchanged. The JS
analogy cache has no expiry, so every second request is within the TTL
window. -/
theorem analogyCache_bucket_hit (st : ServerState) (vid : String) (t1 t2 : ℚ)
    (cap1 cap2 : Option String) (cu1 cu2 : Except Unit (List CaptionEntry))
    (g1 g2 : Option String) (hvid : vid ≠ "")
    (hbucket : ⌊t1 / 5⌋ = ⌊t2 / 5⌋)
    (hmiss : st.analogyCache (bucketKey vid t1) = none) :
    ∃ r : AnalogyResult,
      (handleGenerateAnalogy st ⟨some vid, some t1, cap1⟩ cu1 g1).response = .ok r ∧
      r.cached = false ∧
      (handleGenerateAnalogy
          (handleGenerateAnalogy st ⟨some vid, some t1, cap1⟩ cu1 g1).finalState
          ⟨some vid, some t2, cap2⟩ cu2 g2).response = .ok { r with cached := true } ∧
      (handleGenerateAnalogy
          (handleGenerateAnalogy st ⟨some vid, some t1, cap1⟩ cu1 g1).finalState
          ⟨some vid, some t2, cap2⟩ cu2 g2).generationInvoked = false ∧
      (handleGenerateAnalogy
          (handleGenerateAnalogy st ⟨some vid, some t1, cap1⟩ cu1 g1).finalState
          ⟨some vid, some t2, cap2⟩ cu2 g2).captionFetchAttempted = false ∧
      (handleGenerateAnalogy
          (handleGenerateAnalogy st ⟨some vid, some t1, cap1⟩ cu1 g1).finalState
          ⟨some vid, some t2, cap2⟩ cu2 g2).finalState =
        (handleGenerateAnalogy st ⟨some vid, some t1, cap1⟩ cu1 g1).finalState := by
  have h1 : handleGenerateAnalogy st ⟨some vid, some t1, cap1⟩ cu1 g1 =
      resolveMiss st vid t1 cap1 cu1 g1 :=
    handle_miss_eq st vid (some t1) cap1 cu1 g1 hvid hmiss
  have hhit : (resolveMiss st vid t1 cap1 cu1 g1).finalState.analogyCache
      (bucketKey vid t2) =
      some { missResult st vid t1 cap1 cu1 g1 with cached := true } := by
    rw [← bucketKey_congr vid hbucket]
    exact resolveMiss_cache_at_key st vid t1 cap1 cu1 g1
  have h2 : handleGenerateAnalogy (resolveMiss st vid t1 cap1 cu1 g1).finalState
      ⟨some vid, some t2, cap2⟩ cu2 g2 =
      { response := .ok { missResult st vid t1 cap1 cu1 g1 with cached := true }
        finalState := (resolveMiss st vid t1 cap1 cu1 g1).finalState
        captionFetchAttempted := false
        generationInvoked := false } :=
    handle_hit_eq _ vid (some t2) cap2 cu2 g2 _ hvid hhit
  refine ⟨missResult st vid t1 cap1 cu1 g1, ?_, rfl, ?_, ?_, ?_, ?_⟩ <;>
    rw [h1] <;> first
      | exact resolveMiss_response st vid t1 cap1 cu1 g1
      | rw [h2]

/-- C2 witness: timestamps 12 and 14 for videoId "x" share bucket 10; the run
on the empty state. -/
theorem analogyCache_bucket_hit_witness :
    ∃ r : AnalogyResult,
      (handleGenerateAnalogy emptyState ⟨some "x", some 12, none⟩
          (.error ()) none).response = .ok r ∧
      r.cached = false ∧
      (handleGenerateAnalogy
          (handleGenerateAnalogy emptyState ⟨some "x", some 12, none⟩
            (.error ()) none).finalState
          ⟨some "x", some 14, none⟩ (.error ()) none).response =
        .ok { r with cached := true } ∧
      (handleGenerateAnalogy
          (handleGenerateAnalogy emptyState ⟨some "x", some 12, none⟩
            (.error ()) none).finalState
          ⟨some "x", some 14, none⟩ (.error ()) none).generationInvoked = false ∧
      (handleGenerateAnalogy
          (handleGenerateAnalogy emptyState ⟨some "x", some 12, none⟩
            (.error ()) none).finalState
          ⟨some "x", some 14, none⟩ (.error ()) none).captionFetchAttempted = false ∧
      (handleGenerateAnalogy
          (handleGenerateAnalogy emptyState ⟨some "x", some 12, none⟩
            (.error ()) none).finalState
          ⟨some "x", some 14, none⟩ (.error ()) none).finalState =
        (handleGenerateAnalogy emptyState ⟨some "x", some 12, none⟩
          (.error ()) none).finalState :=
  analogyCache_bucket_hit emptyState "x" 12 14 none none (.error ()) (.error ())
    none none (by decide) (by decide) rfl

/-- C8: a request without a videoId is rejected with the 400 client error
before any caption fetch, generation call or cache mutation; and with a
valid videoId the handler always answers 200, whatever the caption and
generation outcomes (those failures are recovered locally). -/
theorem invalidRequest_only_error (st : ServerState) (ts : Option ℚ)
    (cap : Option String) (cu : Except Unit (List CaptionEntry))
    (g : Option String) (vid : String) (hvid : vid ≠ "") :
    (handleGenerateAnalogy st ⟨none, ts, cap⟩ cu g).response =
      .clientError "videoId is required" ∧
    (handleGenerateAnalogy st ⟨none, ts, cap⟩ cu g).response.status = 400 ∧
    (handleGenerateAnalogy st ⟨none, ts, cap⟩ cu g).finalState = st ∧
    (handleGenerateAnalogy st ⟨none, ts, cap⟩ cu g).captionFetchAttempted = false ∧
    (handleGenerateAnalogy st ⟨none, ts, cap⟩ cu g).generationInvoked = false ∧
    (handleGenerateAnalogy st ⟨some vid, ts, cap⟩ cu g).response.status = 200 := by
  rw [handle_invalid_eq st ts cap cu g]
  refine ⟨rfl, rfl, rfl, rfl, rfl, ?_⟩
  cases hc : st.analogyCache (bucketKey vid (ts.getD 0)) with
  | some r => rw [handle_hit_eq st vid ts cap cu g r hvid hc]; rfl
  | none => rw [handle_miss_eq st vid ts cap cu g hvid hc]; rfl

/-- C8 witness: the empty state, a request missing videoId, and a valid
request for videoId "x". -/
theorem invalidRequest_only_error_witness :
    (handleGenerateAnalogy emptyState ⟨none, some 3, none⟩ (.error ()) none).response =
      .clientError "videoId is required" ∧
    (handleGenerateAnalogy emptyState ⟨none, some 3, none⟩
        (.error ()) none).response.status = 400 ∧
    (handleGenerateAnalogy emptyState ⟨none, some 3, none⟩ (.error ()) none).finalState =
      emptyState ∧
    (handleGenerateAnalogy emptyState ⟨none, some 3, none⟩
        (.error ()) none).captionFetchAttempted = false ∧
    (handleGenerateAnalogy emptyState ⟨none, some 3, none⟩
        (.error ()) none).generationInvoked = false ∧
    (handleGenerateAnalogy emptyState ⟨some "x", some 3, none⟩
        (.error ()) none).response.status = 200 :=
  invalidRequest_only_error emptyState (some 3) none (.error ()) none "x" (by decide)

/-- C6: `fetchCaptions` is idempotent per videoId. A cached videoId is
answered from the cache with no network attempt; a first successful fetch
attempts the network, stores the set, and every later call returns the
stored set without another network attempt; a failed fetch stores nothing
(the cache is returned unchanged), so the very next call for that videoId
attempts the network again. -/
theorem fetchCaptions_idempotent :
    (∀ (cache : String → Option (List CaptionEntry)) (vid : String)
        (caps : List CaptionEntry) (u : Except Unit (List CaptionEntry)),
        cache vid = some caps → fetchCaptions cache vid u = (caps, cache, false)) ∧
    (∀ (cache : String → Option (List CaptionEntry)) (vid : String)
        (caps : List CaptionEntry), cache vid = none →
        fetchCaptions cache vid (.ok caps) = (caps, mapInsert cache vid caps, true) ∧
        mapInsert cache vid caps vid = some caps ∧
        (∀ u2, fetchCaptions (mapInsert cache vid caps) vid u2 =
          (caps, mapInsert cache vid caps, false))) ∧
    (∀ (cache : String → Option (List CaptionEntry)) (vid : String),
        cache vid = none →
        fetchCaptions cache vid (.error ()) = ([], cache, true) ∧
        (∀ u2, (fetchCaptions cache vid u2).2.2 = true)) := by
  refine ⟨?_, ?_, ?_⟩
  · intro cache vid caps u h
    unfold fetchCaptions
    rw [h]
  · intro cache vid caps h
    have hins : mapInsert cache vid caps vid = some caps := by
      unfold mapInsert
      simp
    refine ⟨?_, hins, ?_⟩
    · unfold fetchCaptions
      rw [h]
    · intro u2
      unfold fetchCaptions
      rw [hins]
  · intro cache vid h
    refine ⟨?_, ?_⟩
    · unfold fetchCaptions
      rw [h]
    · intro u2
      unfold fetchCaptions
      rw [h]
      cases u2 <;> rfl

/-- C6 witness: a fresh cache for videoId "v": failure leaves it unchanged,
and a later successful fetch caches the set. -/
theorem fetchCaptions_idempotent_witness :
    (fetchCaptions (fun _ => none) "v" (.error ()) =
      (([] : List CaptionEntry), fun _ => none, true)) ∧
    fetchCaptions (fun _ => none) "v" (.ok [⟨"kick", 1, some 2⟩]) =
      ([⟨"kick", 1, some 2⟩], mapInsert (fun _ => none) "v" [⟨"kick", 1, some 2⟩], true) ∧
    fetchCaptions (mapInsert (fun _ => none) "v" [⟨"kick", 1, some 2⟩]) "v" (.error ()) =
      ([⟨"kick", 1, some 2⟩], mapInsert (fun _ => none) "v" [⟨"kick", 1, some 2⟩], false) :=
  ⟨(fetchCaptions_idempotent.2.2 (fun _ => none) "v" rfl).1,
   (fetchCaptions_idempotent.2.1 (fun _ => none) "v" [⟨"kick", 1, some 2⟩] rfl).1,
   (fetchCaptions_idempotent.2.1 (fun _ => none) "v" [⟨"kick", 1, some 2⟩] rfl).2.2
     (.error ())⟩

/-- C7: `determineDiagramType` applies the fixed keyword precedence on the
lowercased commentary: goal/score/finish → "goal"; else through/pass →
"through-ball"; else offside/trap → "offside-trap"; else "defensive"; and a
commentary containing both "goal" and "pass" resolves to "goal". -/
theorem determineDiagramType_precedence :
    (∀ c : String,
        ((strIncludes (strLower c) "goal" || strIncludes (strLower c) "score" ||
            strIncludes (strLower c) "finish") = true →
          determineDiagramType c = "goal") ∧
        ((strIncludes (strLower c) "goal" || strIncludes (strLower c) "score" ||
            strIncludes (strLower c) "finish") = false →
          (strIncludes (strLower c) "through" || strIncludes (strLower c) "pass") = true →
          determineDiagramType c = "through-ball") ∧
        ((strIncludes (strLower c) "goal" || strIncludes (strLower c) "score" ||
            strIncludes (strLower c) "finish") = false →
          (strIncludes (strLower c) "through" || strIncludes (strLower c) "pass") = false →
          (strIncludes (strLower c) "offside" || strIncludes (strLower c) "trap") = true →
          determineDiagramType c = "offside-trap") ∧
        ((strIncludes (strLower c) "goal" || strIncludes (strLower c) "score" ||
            strIncludes (strLower c) "finish") = false →
          (strIncludes (strLower c) "through" || strIncludes (strLower c) "pass") = false →
          (strIncludes (strLower c) "offside" || strIncludes (strLower c) "trap") = false →
          determineDiagramType c = "defensive")) ∧
    determineDiagramType "What a goal after that defense-splitting pass!" = "goal" := by
  refine ⟨fun c => ⟨?_, ?_, ?_, ?_⟩, by decide⟩ <;>
    · intros
      unfold determineDiagramType
      simp only [*]
      rfl

/-- C7 witness: the goal branch of the precedence theorem at a commentary
containing both "goal" and "pass". -/
theorem determineDiagramType_precedence_witness :
    determineDiagramType "The goal came from a clever pass" = "goal" :=
  (determineDiagramType_precedence.1 "The goal came from a clever pass").1 (by decide)

/-- C9: a successful upstream response with an empty caption list IS cached
(unlike a failure): the empty set is stored under the videoId and every
later call returns it without a network attempt; the timestamp lookup on
the empty set is absent; and an analogy request for such a videoId performs
no caption fetch and falls back to the generic timestamp commentary. -/
theorem emptyCaptionList_cached :
    (∀ (cache : String → Option (List CaptionEntry)) (vid : String),
        cache vid = none →
        fetchCaptions cache vid (.ok []) = ([], mapInsert cache vid [], true) ∧
        mapInsert cache vid ([] : List CaptionEntry) vid = some [] ∧
        (∀ u2, fetchCaptions (mapInsert cache vid []) vid u2 =
          ([], mapInsert cache vid [], false))) ∧
    (∀ ts : ℚ, getCaptionAtTimestamp [] ts = none) ∧
    (∀ (st : ServerState) (vid : String) (ts : ℚ)
        (cu : Except Unit (List CaptionEntry)) (g : Option String), vid ≠ "" →
        st.analogyCache (bucketKey vid ts) = none →
        st.captionsCache vid = some [] →
        (handleGenerateAnalogy st ⟨some vid, some ts, none⟩ cu g).captionFetchAttempted =
          false ∧
        ∃ r, (handleGenerateAnalogy st ⟨some vid, some ts, none⟩ cu g).response = .ok r ∧
          r.originalCommentary = genericDescription ts) := by
  refine ⟨?_, fun ts => rfl, ?_⟩
  · intro cache vid h
    have hins : mapInsert cache vid ([] : List CaptionEntry) vid = some [] := by
      unfold mapInsert
      simp
    refine ⟨?_, hins, ?_⟩
    · unfold fetchCaptions
      rw [h]
    · intro u2
      unfold fetchCaptions
      rw [hins]
  · intro st vid ts cu g hvid hmiss hcaps
    rw [handle_miss_eq st vid (some ts) none cu g hvid hmiss]
    have hacq : acquireCommentary st.captionsCache vid ts none cu =
        (none, st.captionsCache, false) := by
      unfold acquireCommentary fetchCaptions
      rw [hcaps]
      rfl
    have hcomm : resolvedCommentary st.captionsCache vid ts none cu =
        genericDescription ts := by
      unfold resolvedCommentary
      rw [hacq]
    constructor
    · show (acquireCommentary st.captionsCache vid ts none cu).2.2 = false
      rw [hacq]
    · refine ⟨missResult st vid ts none cu g, resolveMiss_response st vid ts none cu g, ?_⟩
      show resolvedCommentary st.captionsCache vid ts none cu = genericDescription ts
      exact hcomm

/-- C9 witness: a state whose captions cache holds the empty list for "v". -/
theorem emptyCaptionList_cached_witness :
    (handleGenerateAnalogy ⟨mapInsert (fun _ => none) "v" [], fun _ => none⟩
        ⟨some "v", some 7, none⟩ (.error ()) none).captionFetchAttempted = false ∧
    ∃ r, (handleGenerateAnalogy ⟨mapInsert (fun _ => none) "v" [], fun _ => none⟩
        ⟨some "v", some 7, none⟩ (.error ()) none).response = .ok r ∧
      r.originalCommentary = genericDescription 7 :=
  emptyCaptionList_cached.2.2 ⟨mapInsert (fun _ => none) "v" [], fun _ => none⟩
    "v" 7 (.error ()) none (by decide) rfl (by decide)

/-- C10: a request whose timestamp is missing or unparseable is not
rejected: the timestamp is coerced to 0, so the request resolves under the
bucket key `videoId ++ "-0"` and the returned result carries timestamp 0 (a
fresh resolution is also stored under that key; a hit on that key is
answered from the cache). -/
theorem missingTimestamp_coerced :
    (∀ vid : String, bucketKey vid 0 = vid ++ "-0") ∧
    (∀ (st : ServerState) (vid : String) (cap : Option String)
        (cu : Except Unit (List CaptionEntry)) (g : Option String), vid ≠ "" →
        (st.analogyCache (bucketKey vid 0) = none →
          (handleGenerateAnalogy st ⟨some vid, none, cap⟩ cu g).response =
            .ok (missResult st vid 0 cap cu g) ∧
          (missResult st vid 0 cap cu g).timestamp = 0 ∧
          (handleGenerateAnalogy st ⟨some vid, none, cap⟩ cu g).finalState.analogyCache
            (bucketKey vid 0) = some { missResult st vid 0 cap cu g with cached := true }) ∧
        (∀ r0, st.analogyCache (bucketKey vid 0) = some r0 →
          (handleGenerateAnalogy st ⟨some vid, none, cap⟩ cu g).response = .ok r0)) := by
  constructor
  · intro vid
    unfold bucketKey
    have h0 : toString (⌊(0 : ℚ) / 5⌋ * 5) = "0" := by decide
    rw [h0, String.append_assoc]
    exact congrArg (fun s => vid ++ s) (by decide)
  · intro st vid cap cu g hvid
    constructor
    · intro hmiss
      rw [handle_miss_eq st vid none cap cu g hvid hmiss]
      exact ⟨resolveMiss_response st vid 0 cap cu g, rfl,
        resolveMiss_cache_at_key st vid 0 cap cu g⟩
    · intro r0 hhit
      rw [handle_hit_eq st vid none cap cu g r0 hvid hhit]

/-- C10 witness: a timestamp-less request for videoId "x" on the empty
state resolves with timestamp 0 and is stored under key "x-0". -/
theorem missingTimestamp_coerced_witness :
    bucketKey "x" 0 = "x-0" ∧
    (handleGenerateAnalogy emptyState ⟨some "x", none, none⟩ (.error ()) none).response =
      .ok (missResult emptyState "x" 0 none (.error ()) none) ∧
    (missResult emptyState "x" 0 none (.error ()) none).timestamp = 0 ∧
    (handleGenerateAnalogy emptyState ⟨some "x", none, none⟩
        (.error ()) none).finalState.analogyCache (bucketKey "x" 0) =
      some { missResult emptyState "x" 0 none (.error ()) none with cached := true } :=
  ⟨missingTimestamp_coerced.1 "x",
   (missingTimestamp_coerced.2 emptyState "x" none (.error ()) none (by decide)).1 rfl⟩

/-- C3: every entry written by `put` carries its TTL
(`expiresAt = insertedAt + ttl`); `get` never returns an entry whose TTL
has elapsed — on any store, a `get` at or after `insertedAt + TTL` of the
entry under the key is a miss, and in particular an entry just written is
returned before its expiry and missed at or after it, even though the
expired entry remains in the backing store (lazy eviction). -/
theorem ttlCache_expiry :
    (∀ (store : String → Option CacheEntry) (now key v ttl),
        ttlPut store now key v ttl key = some ⟨v, now, now + ttl⟩) ∧
    (∀ (store : String → Option CacheEntry) (key : String) (e : CacheEntry) (t : ℚ),
        store key = some e → e.insertedAt + (e.expiresAt - e.insertedAt) ≤ t →
        ttlGet store t key = none) ∧
    (∀ (store : String → Option CacheEntry) (now key v ttl t),
        t < now + ttl → ttlGet (ttlPut store now key v ttl) t key = some v) ∧
    (∀ (store : String → Option CacheEntry) (now key v ttl t),
        now + ttl ≤ t →
        ttlGet (ttlPut store now key v ttl) t key = none ∧
        ttlPut store now key v ttl key = some ⟨v, now, now + ttl⟩) := by
  have hput : ∀ (store : String → Option CacheEntry) (now key v ttl),
      ttlPut store now key v ttl key = some ⟨v, now, now + ttl⟩ := by
    intro store now key v ttl
    unfold ttlPut mapInsert
    simp
  refine ⟨hput, ?_, ?_, ?_⟩
  · intro store key e t hkey hexp
    unfold ttlGet
    rw [hkey]
    have h : ¬ t < e.expiresAt := not_lt.mpr (by linarith)
    show (if t < e.expiresAt then some e.value else none) = none
    rw [if_neg h]
  · intro store now key v ttl t ht
    unfold ttlGet
    rw [hput store now key v ttl]
    exact if_pos ht
  · intro store now key v ttl t ht
    refine ⟨?_, hput store now key v ttl⟩
    unfold ttlGet
    rw [hput store now key v ttl]
    exact if_neg (not_lt.mpr ht)

/-- C3 witness: a result inserted at time 0 with a 300-second TTL is
returned at 299 and missed at 300, while still present in the store. -/
theorem ttlCache_expiry_witness :
    ttlGet (ttlPut (fun _ => none) 0 "x-10" sampleResult 300) 299 "x-10" =
      some sampleResult ∧
    ttlGet (ttlPut (fun _ => none) 0 "x-10" sampleResult 300) 300 "x-10" = none ∧
    ttlPut (fun _ => none) 0 "x-10" sampleResult 300 "x-10" =
      some ⟨sampleResult, 0, 0 + 300⟩ :=
  ⟨ttlCache_expiry.2.2.1 (fun _ => none) 0 "x-10" sampleResult 300 299 (by decide),
   (ttlCache_expiry.2.2.2 (fun _ => none) 0 "x-10" sampleResult 300 300 (by decide)).1,
   (ttlCache_expiry.2.2.2 (fun _ => none) 0 "x-10" sampleResult 300 300 (by decide)).2⟩

theorem raceTicks_elapsed_le (responder : ℕ → Option (List CaptionEntry)) :
    ∀ (n e : ℕ), (raceTicks responder n e).2 ≤ e + n := by
  intro n
  induction n with
  | zero => intro e; simp [raceTicks]
  | succ n ih =>
    intro e
    unfold raceTicks
    cases responder e with
    | some caps => simp
    | none =>
      calc (raceTicks responder n (e + 1)).2 ≤ (e + 1) + n := ih (e + 1)
        _ = e + (n + 1) := by omega

theorem raceTicks_unavailable (responder : ℕ → Option (List CaptionEntry)) :
    ∀ (n e : ℕ), (∀ t, e ≤ t → t < e + n → responder t = none) →
      (raceTicks responder n e).1 = .captionUnavailable := by
  intro n
  induction n with
  | zero => intro e _; rfl
  | succ n ih =>
    intro e h
    unfold raceTicks
    rw [h e (le_refl e) (by omega)]
    exact ih (e + 1) (fun t ht1 ht2 => h t (by omega) (by omega))

/-- C5: the caption fetch never runs past its hard timeout (the elapsed
time is at most the timeout, for every upstream behaviour); when the
upstream does not respond within the timeout the fetch yields
`CaptionUnavailable`, which the caller treats identically to an empty
caption set; and the timeout constant lies in the observed 2–3 second
range. -/
theorem fetchAllTimed_bounded :
    (∀ responder, (fetchAllTimed responder).2 ≤ captionFetchTimeoutMs) ∧
    (∀ responder, (∀ t, t < captionFetchTimeoutMs → responder t = none) →
        (fetchAllTimed responder).1 = .captionUnavailable ∧
        (fetchAllTimed responder).1.capsOrEmpty = []) ∧
    2000 ≤ captionFetchTimeoutMs ∧ captionFetchTimeoutMs ≤ 3000 := by
  refine ⟨?_, ?_, by decide, by decide⟩
  · intro responder
    have := raceTicks_elapsed_le responder captionFetchTimeoutMs 0
    simpa [fetchAllTimed] using this
  · intro responder h
    have hout : (fetchAllTimed responder).1 = .captionUnavailable :=
      raceTicks_unavailable responder captionFetchTimeoutMs 0
        (fun t _ ht2 => h t (by omega))
    exact ⟨hout, by rw [hout]; rfl⟩

/-- C5 witness: an upstream that never responds yields `CaptionUnavailable`,
treated as the empty caption set, within the timeout budget. -/
theorem fetchAllTimed_bounded_witness :
    (fetchAllTimed (fun _ => none)).2 ≤ captionFetchTimeoutMs ∧
    (fetchAllTimed (fun _ => none)).1 = .captionUnavailable ∧
    (fetchAllTimed (fun _ => none)).1.capsOrEmpty = [] :=
  ⟨fetchAllTimed_bounded.1 (fun _ => none),
   (fetchAllTimed_bounded.2.1 (fun _ => none) (fun _ _ => rfl)).1,
   (fetchAllTimed_bounded.2.1 (fun _ => none) (fun _ _ => rfl)).2⟩

end Chalkboard
